import Mathlib

/-!
Verification of the transcription CLI (`src/transcribe.py`).

The script loads a Whisper model, transcribes one audio file with the
language fixed to `"ja"`, reshapes the model's segment/word dictionaries
into an output envelope, and prints it as one JSON line.  We embed the
script shallowly:

* time values are modelled as rationals; Python's `round(x, 2)` is
  round-half-to-even to a multiple of `1/100` (`round2`);
* `str.strip()` is `pyStrip` (drop Python whitespace at both ends);
* the model result is a record with `Option` fields exactly where the
  script uses `dict.get` with a default (`text`, `segments`, and each
  segment's `words`); the keys the script indexes directly (`start`,
  `end`, `text` of a segment, `word`/`start`/`end` of a word) are plain
  fields, mirroring that the script assumes their presence;
* `json.dumps` is a serializer over a small JSON syntax tree, with the
  `ensure_ascii` flag modelled faithfully (escape tables of CPython's
  `json` module);
* the `__main__` block is `runMain`, returning the observable effects:
  the list of printed stdout lines, the exit code, and the argument
  records of the `load_model` / `model.transcribe` calls.
-/

namespace Transcribe

/-- Python `str.isspace` characters (the set `str.strip()` removes):
ASCII whitespace, the C1/format controls Python treats as space, and the
Unicode space separators. -/
def isPySpace (c : Char) : Bool :=
  c = ' ' || c = '\t' || c = '\n' || c = '\x0b' || c = '\x0c' || c = '\r' ||
  c = '\x1c' || c = '\x1d' || c = '\x1e' || c = '\x1f' || c = '\x85' ||
  c = '\xa0' || c = ' ' ||
  (0x2000 ≤ c.toNat && c.toNat ≤ 0x200a) ||
  c = ' ' || c = ' ' || c = ' ' || c = ' ' || c = '　'

/-- Python `s.strip()`: remove leading and trailing whitespace. -/
def pyStrip (s : String) : String :=
  ⟨((s.data.dropWhile isPySpace).reverse.dropWhile isPySpace).reverse⟩

/-- Round a rational to the nearest integer, ties to even — the rounding
mode of Python's builtin `round`. -/
def roundHalfEven (q : ℚ) : ℤ :=
  if q - ⌊q⌋ < 1/2 then ⌊q⌋
  else if 1/2 < q - ⌊q⌋ then ⌊q⌋ + 1
  else if ⌊q⌋ % 2 = 0 then ⌊q⌋ else ⌊q⌋ + 1

/-- Python `round(x, 2)`: round to two decimal places, ties to even. -/
def round2 (q : ℚ) : ℚ := (roundHalfEven (q * 100) : ℚ) / 100

theorem floor_le_roundHalfEven (q : ℚ) : ⌊q⌋ ≤ roundHalfEven q := by
  unfold roundHalfEven
  split_ifs <;> omega

theorem roundHalfEven_le_floor_add_one (q : ℚ) : roundHalfEven q ≤ ⌊q⌋ + 1 := by
  unfold roundHalfEven
  split_ifs <;> omega

theorem roundHalfEven_nonneg {q : ℚ} (hq : 0 ≤ q) : 0 ≤ roundHalfEven q :=
  le_trans (Int.floor_nonneg.mpr hq) (floor_le_roundHalfEven q)

theorem roundHalfEven_mono {q r : ℚ} (h : q ≤ r) :
    roundHalfEven q ≤ roundHalfEven r := by
  rcases lt_or_eq_of_le (Int.floor_le_floor h) with hf | hf
  · calc roundHalfEven q ≤ ⌊q⌋ + 1 := roundHalfEven_le_floor_add_one q
      _ ≤ ⌊r⌋ := by omega
      _ ≤ roundHalfEven r := floor_le_roundHalfEven r
  · have hc : ((⌊q⌋ : ℚ)) = ((⌊r⌋ : ℚ)) := by rw [hf]
    have hfr : q - ⌊q⌋ ≤ r - ⌊r⌋ := by rw [← hc]; linarith
    unfold roundHalfEven
    split_ifs <;> first | omega | linarith

theorem round2_nonneg {q : ℚ} (hq : 0 ≤ q) : 0 ≤ round2 q := by
  unfold round2
  have h : (0 : ℤ) ≤ roundHalfEven (q * 100) :=
    roundHalfEven_nonneg (by positivity)
  have h2 : (0 : ℚ) ≤ (roundHalfEven (q * 100) : ℚ) := by exact_mod_cast h
  positivity

theorem round2_mono {q r : ℚ} (h : q ≤ r) : round2 q ≤ round2 r := by
  unfold round2
  have h1 : roundHalfEven (q * 100) ≤ roundHalfEven (r * 100) :=
    roundHalfEven_mono (by linarith)
  have h2 : ((roundHalfEven (q * 100) : ℚ)) ≤ ((roundHalfEven (r * 100) : ℚ)) := by
    exact_mod_cast h1
  linarith

/-- One word record of a Whisper segment.  The script indexes
`word["word"]`, `word["start"]`, `word["end"]` directly, so all three
fields are required (`end` is `stop`: `end` is a Lean keyword). -/
structure WordRec where
  word : String
  start : ℚ
  stop : ℚ
deriving DecidableEq, Repr

/-- One segment of the model's result.  `seg["start"]`, `seg["end"]`,
`seg["text"]` are indexed directly (required); `seg.get("words", [])`
makes `words` optional with default `[]`. -/
structure Seg where
  start : ℚ
  stop : ℚ
  text : String
  words : Option (List WordRec)
deriving DecidableEq, Repr

/-- The dictionary returned by `model.transcribe`, restricted to the keys
the script reads: `result.get("text", "")` and
`result.get("segments", [])` are both `get`-with-default, hence
optional. -/
structure ModelResult where
  text : Option String
  segments : Option (List Seg)
deriving DecidableEq, Repr

/-- One entry of the output's `subtitles` list. -/
structure Subtitle where
  start : ℚ
  stop : ℚ
  text : String
deriving DecidableEq, Repr

/-- One entry of the output's `words` list. -/
structure OutWord where
  word : String
  start : ℚ
  stop : ℚ
deriving DecidableEq, Repr

/-- The output envelope the script assembles before `json.dumps`. -/
structure Output where
  text : String
  subtitles : List Subtitle
  words : List OutWord
deriving DecidableEq, Repr

/-- The subtitle entry built for a segment (lines 15-19 of the script). -/
def segSubtitle (s : Seg) : Subtitle :=
  { start := round2 s.start, stop := round2 s.stop, text := pyStrip s.text }

/-- The word entry built for a word record (lines 21-25 of the script). -/
def wordOut (w : WordRec) : OutWord :=
  { word := pyStrip w.word, start := round2 w.start, stop := round2 w.stop }

/-- Body of the inner `for word in seg.get("words", [])` loop: append one
word entry. -/
def wordStep (acc : List OutWord) (w : WordRec) : List OutWord :=
  acc ++ [wordOut w]

/-- Body of the outer `for seg in result.get("segments", [])` loop:
append the segment's subtitle, then run the inner loop over its words. -/
def segStep (acc : List Subtitle × List OutWord) (s : Seg) :
    List Subtitle × List OutWord :=
  (acc.1 ++ [segSubtitle s], (s.words.getD []).foldl wordStep acc.2)

/-- The two accumulator lists (`subtitles`, `words`) after the loop over
all segments. -/
def buildLists (segs : List Seg) : List Subtitle × List OutWord :=
  segs.foldl segStep ([], [])

/-- The word entries a single segment contributes. -/
def segWordsOut (s : Seg) : List OutWord :=
  (s.words.getD []).map wordOut

/-- The `output` dictionary of `transcribe` as a function of the model
result (lines 12-31 of the script). -/
def transcribeOutput (res : ModelResult) : Output :=
  { text := res.text.getD ""
    subtitles := (buildLists (res.segments.getD [])).1
    words := (buildLists (res.segments.getD [])).2 }

theorem foldl_wordStep (ws : List WordRec) (acc : List OutWord) :
    ws.foldl wordStep acc = acc ++ ws.map wordOut := by
  induction ws generalizing acc with
  | nil => simp
  | cons w ws ih => simp [wordStep, ih]

theorem foldl_segStep (segs : List Seg) (acc : List Subtitle × List OutWord) :
    segs.foldl segStep acc =
      (acc.1 ++ segs.map segSubtitle, acc.2 ++ (segs.map segWordsOut).flatten) := by
  induction segs generalizing acc with
  | nil => simp
  | cons s segs ih =>
    simp [segStep, ih, foldl_wordStep, segWordsOut, List.append_assoc]

theorem buildLists_fst (segs : List Seg) :
    (buildLists segs).1 = segs.map segSubtitle := by
  simp [buildLists, foldl_segStep]

theorem buildLists_snd (segs : List Seg) :
    (buildLists segs).2 = (segs.map segWordsOut).flatten := by
  simp [buildLists, foldl_segStep]

theorem transcribeOutput_subtitles (res : ModelResult) :
    (transcribeOutput res).subtitles = (res.segments.getD []).map segSubtitle := by
  simp [transcribeOutput, buildLists_fst]

theorem transcribeOutput_words (res : ModelResult) :
    (transcribeOutput res).words =
      ((res.segments.getD []).map segWordsOut).flatten := by
  simp [transcribeOutput, buildLists_snd]

mutual
/-- JSON values, restricted to what the script serializes (strings,
numbers that are multiples of `1/100`, arrays, objects in insertion
order).  Arrays and objects use their own list types so that the
serializer is structurally recursive. -/
inductive Json where
  | str : String → Json
  | num : ℚ → Json
  | arr : JsonItems → Json
  | obj : JsonFields → Json
/-- The element list of a JSON array. -/
inductive JsonItems where
  | nil : JsonItems
  | cons : Json → JsonItems → JsonItems
/-- The key/value list of a JSON object, in insertion order. -/
inductive JsonFields where
  | nil : JsonFields
  | cons : String → Json → JsonFields → JsonFields
end

/-- Build a JSON array element list from a `List`. -/
def itemsOfList : List Json → JsonItems
  | [] => JsonItems.nil
  | j :: rest => JsonItems.cons j (itemsOfList rest)

/-- The keys of a JSON object's field list, in order. -/
def fieldKeys : JsonFields → List String
  | JsonFields.nil => []
  | JsonFields.cons k _ rest => k :: fieldKeys rest

/-- The top-level keys of a JSON value (empty for non-objects). -/
def jsonKeys : Json → List String
  | Json.obj kvs => fieldKeys kvs
  | _ => []

/-- The decimal digit character for `d % 10`. -/
def natDigitChar (d : ℕ) : Char :=
  match d % 10 with
  | 0 => '0' | 1 => '1' | 2 => '2' | 3 => '3' | 4 => '4'
  | 5 => '5' | 6 => '6' | 7 => '7' | 8 => '8' | _ => '9'

/-- The lowercase hexadecimal digit character for `d % 16` (CPython's
`\uXXXX` escapes use lowercase hex). -/
def hexDigitChar (d : ℕ) : Char :=
  match d % 16 with
  | 0 => '0' | 1 => '1' | 2 => '2' | 3 => '3' | 4 => '4'
  | 5 => '5' | 6 => '6' | 7 => '7' | 8 => '8' | 9 => '9'
  | 10 => 'a' | 11 => 'b' | 12 => 'c' | 13 => 'd' | 14 => 'e' | _ => 'f'

/-- Decimal digits of a natural number, most significant first. -/
def natDigits (n : ℕ) : List Char :=
  if _h : n < 10 then [natDigitChar n]
  else natDigits (n / 10) ++ [natDigitChar (n % 10)]
decreasing_by exact Nat.div_lt_self (by omega) (by omega)

/-- Decimal rendering of a natural number. -/
def natRepr (n : ℕ) : String := ⟨natDigits n⟩

/-- A `\uXXXX` escape sequence (four lowercase hex digits). -/
def uEscape (n : ℕ) : String :=
  ⟨['\\', 'u', hexDigitChar (n / 4096), hexDigitChar (n / 256),
    hexDigitChar (n / 16), hexDigitChar n]⟩

/-- CPython `json` escaping of one character.  `ea` is `ensure_ascii`:
with `ea = false` only `"`, `\` and the C0 controls are escaped (regex
`[\x00-\x1f\\"\b\f\n\r\t]`); with `ea = true` additionally every
character outside `0x20..0x7e` is escaped, non-BMP ones as a surrogate
pair.  The two-character named escapes follow CPython's `ESCAPE_DCT`. -/
def escapeChar (ea : Bool) (c : Char) : String :=
  if c = '"' then "\\\""
  else if c = '\\' then "\\\\"
  else if c = '\n' then "\\n"
  else if c = '\r' then "\\r"
  else if c = '\t' then "\\t"
  else if c = '\x08' then "\\b"
  else if c = '\x0c' then "\\f"
  else if c.toNat < 0x20 then uEscape c.toNat
  else if ea = true ∧ 0x7e < c.toNat then
    if c.toNat < 0x10000 then uEscape c.toNat
    else uEscape (0xd800 + (c.toNat - 0x10000) / 1024) ++
         uEscape (0xdc00 + (c.toNat - 0x10000) % 1024)
  else String.singleton c

/-- Concatenation of a list of strings. -/
def concatStrings : List String → String
  | [] => ""
  | s :: rest => s ++ concatStrings rest

/-- CPython `json` rendering of a string: a quoted sequence of escaped
characters. -/
def escapeJsonString (ea : Bool) (s : String) : String :=
  "\"" ++ concatStrings (s.data.map (escapeChar ea)) ++ "\""

/-- Rendering of the non-negative number `n / 100` the way `repr` of the
corresponding float prints it (`2 -> "0.02"`, `150 -> "1.5"`,
`200 -> "2.0"`). -/
def renderCenti (n : ℕ) : String :=
  if n % 100 = 0 then natRepr (n / 100) ++ ".0"
  else if n % 10 = 0 then
    natRepr (n / 100) ++ "." ++ String.singleton (natDigitChar (n / 10 % 10))
  else
    natRepr (n / 100) ++ "." ++ String.singleton (natDigitChar (n / 10 % 10))
      ++ String.singleton (natDigitChar (n % 10))

/-- Rendering of a JSON number.  The script only ever serializes values
of `round2`, i.e. multiples of `1/100`, for which `⌊q * 100⌋` is exact. -/
def renderNum (q : ℚ) : String :=
  if q < 0 then "-" ++ renderCenti (Int.toNat ⌊-q * 100⌋)
  else renderCenti (Int.toNat ⌊q * 100⌋)

mutual
/-- CPython `json.dumps` with default separators `", "` and `": "`;
`ea` is the `ensure_ascii` keyword (`True` by default, the script passes
`False` on the success path). -/
def serializeJson (ea : Bool) : Json → String
  | Json.str s => escapeJsonString ea s
  | Json.num q => renderNum q
  | Json.arr xs => "[" ++ serializeItems ea xs ++ "]"
  | Json.obj kvs => "\x7b" ++ serializeFields ea kvs ++ "\x7d"
/-- Array elements joined by `", "`. -/
def serializeItems (ea : Bool) : JsonItems → String
  | JsonItems.nil => ""
  | JsonItems.cons j JsonItems.nil => serializeJson ea j
  | JsonItems.cons j rest => serializeJson ea j ++ ", " ++ serializeItems ea rest
/-- Object fields `key: value` joined by `", "`. -/
def serializeFields (ea : Bool) : JsonFields → String
  | JsonFields.nil => ""
  | JsonFields.cons k v JsonFields.nil =>
      escapeJsonString ea k ++ ": " ++ serializeJson ea v
  | JsonFields.cons k v rest =>
      escapeJsonString ea k ++ ": " ++ serializeJson ea v ++ ", " ++
        serializeFields ea rest
end

/-- The JSON value for one subtitle entry: keys in insertion order
`start`, `end`, `text`. -/
def subtitleJson (s : Subtitle) : Json :=
  Json.obj (JsonFields.cons "start" (Json.num s.start)
    (JsonFields.cons "end" (Json.num s.stop)
      (JsonFields.cons "text" (Json.str s.text) JsonFields.nil)))

/-- The JSON value for one word entry: keys in insertion order `word`,
`start`, `end`. -/
def wordJson (w : OutWord) : Json :=
  Json.obj (JsonFields.cons "word" (Json.str w.word)
    (JsonFields.cons "start" (Json.num w.start)
      (JsonFields.cons "end" (Json.num w.stop) JsonFields.nil)))

/-- The JSON value of the `output` dictionary: keys in insertion order
`text`, `subtitles`, `words`. -/
def outputJson (o : Output) : Json :=
  Json.obj (JsonFields.cons "text" (Json.str o.text)
    (JsonFields.cons "subtitles" (Json.arr (itemsOfList (o.subtitles.map subtitleJson)))
      (JsonFields.cons "words" (Json.arr (itemsOfList (o.words.map wordJson)))
        JsonFields.nil)))

/-- The stdout line of a successful `transcribe` call:
`json.dumps(output, ensure_ascii=False)`. -/
def successLine (res : ModelResult) : String :=
  serializeJson false (outputJson (transcribeOutput res))

/-- The Japanese usage message printed when no audio path is given. -/
def errorMessage : String := "音声ファイルのパスを指定してください"

/-- The JSON error envelope of the missing-argument branch. -/
def errorJson : Json :=
  Json.obj (JsonFields.cons "error" (Json.str errorMessage) JsonFields.nil)

/-- The stdout line of the missing-argument branch:
`json.dumps({"error": ...})` with the default `ensure_ascii=True`. -/
def errorLine : String := serializeJson true errorJson

/-- The keyword arguments of the script's single `model.transcribe` call:
`language="ja", verbose=False, word_timestamps=True` (`Option` models a
keyword that could also be left at its `None` default). -/
structure TranscribeArgs where
  audio : String
  language : Option String
  verbose : Option Bool
  word_timestamps : Bool
deriving DecidableEq, Repr

/-- The observable effects of one process run: the lines printed to
stdout, the exit code, and the argument records of the external
`whisper.load_model` and `model.transcribe` calls, in order. -/
structure Effects where
  stdout : List String
  exitCode : ℕ
  loadCalls : List String
  transcribeCalls : List TranscribeArgs
deriving DecidableEq, Repr

/-- The effects of `transcribe(audio_path, model_name)` (lines 8-32 of
the script), parameterized by the model result the external
`model.transcribe` call returns. -/
def runTranscribe (audio_path model_name : String) (res : ModelResult) : Effects :=
  { stdout := [successLine res]
    exitCode := 0
    loadCalls := [model_name]
    transcribeCalls := [⟨audio_path, some "ja", some false, true⟩] }

/-- The `__main__` block (lines 34-41): with fewer than two entries in
`sys.argv`, print the error envelope and exit with status 1; otherwise
call `transcribe(sys.argv[1], sys.argv[2] if len(sys.argv) > 2 else
"base")`. -/
def runMain (argv : List String) (res : ModelResult) : Effects :=
  if argv.length < 2 then
    { stdout := [errorLine]
      exitCode := 1
      loadCalls := []
      transcribeCalls := [] }
  else
    runTranscribe (argv.getD 1 "")
      (if argv.length > 2 then argv.getD 2 "" else "base") res

/-- A string that contains no newline character, i.e. occupies a single
output line when printed. -/
def lineSafe (s : String) : Prop := ∀ c ∈ s.data, c ≠ '\n'

theorem lineSafe_append {s t : String} (hs : lineSafe s) (ht : lineSafe t) :
    lineSafe (s ++ t) := by
  intro c hc
  rw [String.data_append, List.mem_append] at hc
  rcases hc with h | h
  · exact hs c h
  · exact ht c h

theorem lineSafe_concatStrings {l : List String}
    (h : ∀ s ∈ l, lineSafe s) : lineSafe (concatStrings l) := by
  induction l with
  | nil => intro c hc; simp [concatStrings] at hc
  | cons s rest ih =>
    exact lineSafe_append (h s (by simp)) (ih fun t ht => h t (by simp [ht]))

theorem natDigitChar_ne_newline (d : ℕ) : natDigitChar d ≠ '\n' := by
  unfold natDigitChar
  split <;> decide

theorem hexDigitChar_ne_newline (d : ℕ) : hexDigitChar d ≠ '\n' := by
  unfold hexDigitChar
  split <;> decide

theorem lineSafe_natRepr (n : ℕ) : lineSafe (natRepr n) := by
  suffices h : ∀ c ∈ natDigits n, c ≠ '\n' by exact h
  induction n using Nat.strong_induction_on with
  | _ n ih =>
    rw [natDigits]
    split
    · intro c hc
      rcases List.mem_singleton.mp hc with rfl
      exact natDigitChar_ne_newline n
    · intro c hc
      rcases List.mem_append.mp hc with h | h
      · exact ih (n / 10) (Nat.div_lt_self (by omega) (by omega)) c h
      · rcases List.mem_singleton.mp h with rfl
        exact natDigitChar_ne_newline (n % 10)

theorem lineSafe_decide (s : String)
    (h : decide (∀ c ∈ s.data, c ≠ '\n') = true) : lineSafe s := by
  have hp := of_decide_eq_true h
  exact hp

theorem lineSafe_uEscape (n : ℕ) : lineSafe (uEscape n) := by
  intro c hc
  have hm : c ∈ ['\\', 'u', hexDigitChar (n / 4096), hexDigitChar (n / 256),
      hexDigitChar (n / 16), hexDigitChar n] := hc
  simp only [List.mem_cons, List.not_mem_nil, or_false] at hm
  rcases hm with rfl | rfl | rfl | rfl | rfl | rfl
  · decide
  · decide
  · exact hexDigitChar_ne_newline _
  · exact hexDigitChar_ne_newline _
  · exact hexDigitChar_ne_newline _
  · exact hexDigitChar_ne_newline _

set_option maxHeartbeats 1000000 in
theorem lineSafe_escapeChar (ea : Bool) (c : Char) :
    lineSafe (escapeChar ea c) := by
  unfold escapeChar
  split_ifs with h1 h2 h3 h4 h5 h6 h7 h8 h9 h10
  · exact lineSafe_decide "\\\"" rfl
  · exact lineSafe_decide "\\\\" rfl
  · exact lineSafe_decide "\\n" rfl
  · exact lineSafe_decide "\\r" rfl
  · exact lineSafe_decide "\\t" rfl
  · exact lineSafe_decide "\\b" rfl
  · exact lineSafe_decide "\\f" rfl
  · exact lineSafe_uEscape _
  · exact lineSafe_uEscape _
  · exact lineSafe_append (lineSafe_uEscape _) (lineSafe_uEscape _)
  · intro x hx
    rcases List.mem_singleton.mp hx with rfl
    intro hxn
    subst hxn
    exact h8 (by decide)

theorem lineSafe_escapeJsonString (ea : Bool) (s : String) :
    lineSafe (escapeJsonString ea s) := by
  unfold escapeJsonString
  refine lineSafe_append (lineSafe_append ?_ ?_) ?_
  · exact lineSafe_decide "\"" rfl
  · refine lineSafe_concatStrings ?_
    intro t ht
    rcases List.mem_map.mp ht with ⟨c, _, rfl⟩
    exact lineSafe_escapeChar ea c
  · exact lineSafe_decide "\"" rfl

theorem lineSafe_singleton_digit (d : ℕ) :
    lineSafe (String.singleton (natDigitChar d)) := by
  intro c hc
  rcases List.mem_singleton.mp hc with rfl
  exact natDigitChar_ne_newline d

theorem lineSafe_renderCenti (n : ℕ) : lineSafe (renderCenti n) := by
  unfold renderCenti
  have hdot : lineSafe "." := lineSafe_decide "." rfl
  split_ifs
  · exact lineSafe_append (lineSafe_natRepr _) (lineSafe_decide ".0" rfl)
  · exact lineSafe_append (lineSafe_append (lineSafe_natRepr _) hdot)
      (lineSafe_singleton_digit _)
  · exact lineSafe_append
      (lineSafe_append (lineSafe_append (lineSafe_natRepr _) hdot)
        (lineSafe_singleton_digit _))
      (lineSafe_singleton_digit _)

theorem lineSafe_renderNum (q : ℚ) : lineSafe (renderNum q) := by
  unfold renderNum
  split_ifs
  · exact lineSafe_append (lineSafe_decide "-" rfl) (lineSafe_renderCenti _)
  · exact lineSafe_renderCenti _

mutual
theorem lineSafe_serializeJson (ea : Bool) : (j : Json) → lineSafe (serializeJson ea j)
  | Json.str s => lineSafe_escapeJsonString ea s
  | Json.num q => lineSafe_renderNum q
  | Json.arr xs =>
      lineSafe_append (lineSafe_append (lineSafe_decide "[" rfl)
        (lineSafe_serializeItems ea xs)) (lineSafe_decide "]" rfl)
  | Json.obj kvs =>
      lineSafe_append (lineSafe_append (lineSafe_decide "\x7b" rfl)
        (lineSafe_serializeFields ea kvs)) (lineSafe_decide "\x7d" rfl)
theorem lineSafe_serializeItems (ea : Bool) : (xs : JsonItems) → lineSafe (serializeItems ea xs)
  | JsonItems.nil => lineSafe_decide "" rfl
  | JsonItems.cons j JsonItems.nil => lineSafe_serializeJson ea j
  | JsonItems.cons j (JsonItems.cons j2 rest) =>
      lineSafe_append (lineSafe_append (lineSafe_serializeJson ea j)
        (lineSafe_decide ", " rfl))
        (lineSafe_serializeItems ea (JsonItems.cons j2 rest))
theorem lineSafe_serializeFields (ea : Bool) : (kvs : JsonFields) → lineSafe (serializeFields ea kvs)
  | JsonFields.nil => lineSafe_decide "" rfl
  | JsonFields.cons k v JsonFields.nil =>
      lineSafe_append (lineSafe_append (lineSafe_escapeJsonString ea k)
        (lineSafe_decide ": " rfl)) (lineSafe_serializeJson ea v)
  | JsonFields.cons k v (JsonFields.cons k2 v2 rest) =>
      lineSafe_append (lineSafe_append (lineSafe_append
        (lineSafe_append (lineSafe_escapeJsonString ea k)
          (lineSafe_decide ": " rfl)) (lineSafe_serializeJson ea v))
        (lineSafe_decide ", " rfl))
        (lineSafe_serializeFields ea (JsonFields.cons k2 v2 rest))
end

/-- C1: for every invocation with fewer than two entries in the argument
vector, the program prints exactly one JSON object with a single `error`
key to stdout, exits with status 1, and never calls `load_model` or
`model.transcribe`; nothing else is printed. -/
theorem C1_missing_arg_error (argv : List String) (res : ModelResult)
    (h : argv.length < 2) :
    (runMain argv res).stdout = [serializeJson true errorJson] ∧
    jsonKeys errorJson = ["error"] ∧
    (runMain argv res).exitCode = 1 ∧
    (runMain argv res).loadCalls = [] ∧
    (runMain argv res).transcribeCalls = [] := by
  unfold runMain
  rw [if_pos h]
  exact ⟨rfl, rfl, rfl, rfl, rfl⟩

/-- Witness for C1 at `argv = ["prog"]`. -/
theorem C1_missing_arg_error_witness :
    (["prog"] : List String).length < 2 ∧
    ((runMain ["prog"] { text := none, segments := none }).stdout =
      [serializeJson true errorJson] ∧
    jsonKeys errorJson = ["error"] ∧
    (runMain ["prog"] { text := none, segments := none }).exitCode = 1 ∧
    (runMain ["prog"] { text := none, segments := none }).loadCalls = [] ∧
    (runMain ["prog"] { text := none, segments := none }).transcribeCalls = []) :=
  ⟨by decide, C1_missing_arg_error ["prog"] { text := none, segments := none } (by decide)⟩

/-- C2: every segment is mapped, in order, to exactly one subtitle entry
with `start`/`end` rounded to 2 decimal places and `text` trimmed; the
subtitle list has the same length and order as the segment list. -/
theorem C2_subtitles_map_segments (res : ModelResult) :
    (transcribeOutput res).subtitles =
      (res.segments.getD []).map (fun s =>
        { start := round2 s.start, stop := round2 s.stop, text := pyStrip s.text }) ∧
    (transcribeOutput res).subtitles.length = (res.segments.getD []).length := by
  refine ⟨?_, ?_⟩
  · rw [transcribeOutput_subtitles]
    rfl
  · rw [transcribeOutput_subtitles]
    exact List.length_map _ _

/-- C3: on the success path, stdout is exactly one line, that line is the
`ensure_ascii=False` serialization of the output object, the object's
keys are exactly `text`, `subtitles`, `words` in that order, and the line
contains no newline character. -/
theorem C3_success_output_shape (p a : String) (rest : List String)
    (res : ModelResult) :
    (runMain (p :: a :: rest) res).stdout =
      [serializeJson false (outputJson (transcribeOutput res))] ∧
    jsonKeys (outputJson (transcribeOutput res)) = ["text", "subtitles", "words"] ∧
    lineSafe (serializeJson false (outputJson (transcribeOutput res))) := by
  refine ⟨?_, rfl, lineSafe_serializeJson false _⟩
  unfold runMain
  rw [if_neg (by simp only [List.length_cons]; omega)]
  rfl

/-- C4: the emitted word list is the concatenation, in segment order and
intra-segment order, of each segment's words, each trimmed and rounded to
2 decimal places; segment boundaries are flattened away. -/
theorem C4_words_flattened (res : ModelResult) :
    (transcribeOutput res).words =
      ((res.segments.getD []).map (fun s =>
        (s.words.getD []).map (fun w =>
          { word := pyStrip w.word, start := round2 w.start, stop := round2 w.stop }))).flatten := by
  rw [transcribeOutput_words]
  rfl

/-- C5: if the model's segments have `0 ≤ start ≤ end` and are sorted
non-decreasing by `start`, then every subtitle has non-negative
`start`/`end` with `start ≤ end`, and the subtitles are sorted
non-decreasing by `start` — rounding preserves the invariants. -/
theorem C5_subtitle_ordering (res : ModelResult)
    (hpos : ∀ s ∈ res.segments.getD [], 0 ≤ s.start ∧ s.start ≤ s.stop)
    (hsort : (res.segments.getD []).Pairwise (fun a b => a.start ≤ b.start)) :
    (∀ sub ∈ (transcribeOutput res).subtitles,
      0 ≤ sub.start ∧ 0 ≤ sub.stop ∧ sub.start ≤ sub.stop) ∧
    (transcribeOutput res).subtitles.Pairwise (fun a b => a.start ≤ b.start) := by
  rw [transcribeOutput_subtitles]
  constructor
  · intro sub hsub
    rcases List.mem_map.mp hsub with ⟨s, hs, rfl⟩
    rcases hpos s hs with ⟨h0, h1⟩
    have r0 : 0 ≤ round2 s.start := round2_nonneg h0
    have r1 : round2 s.start ≤ round2 s.stop := round2_mono h1
    exact ⟨r0, le_trans r0 r1, r1⟩
  · exact List.Pairwise.map _ (fun a b hab => round2_mono hab) hsort

/-- Witness for C5 at a two-segment result. -/
theorem C5_subtitle_ordering_witness :
    (∀ s ∈ (ModelResult.mk (some "t")
        (some [⟨0, 1, " a ", none⟩, ⟨1, 2, "b", none⟩])).segments.getD [],
      0 ≤ s.start ∧ s.start ≤ s.stop) ∧
    ((ModelResult.mk (some "t")
        (some [⟨0, 1, " a ", none⟩, ⟨1, 2, "b", none⟩])).segments.getD
          []).Pairwise (fun a b => a.start ≤ b.start) ∧
    ((∀ sub ∈ (transcribeOutput (ModelResult.mk (some "t")
        (some [⟨0, 1, " a ", none⟩, ⟨1, 2, "b", none⟩]))).subtitles,
      0 ≤ sub.start ∧ 0 ≤ sub.stop ∧ sub.start ≤ sub.stop) ∧
    (transcribeOutput (ModelResult.mk (some "t")
        (some [⟨0, 1, " a ", none⟩, ⟨1, 2, "b", none⟩]))).subtitles.Pairwise
      (fun a b => a.start ≤ b.start)) :=
  ⟨by decide, by decide,
    C5_subtitle_ordering _ (by decide) (by decide)⟩

/-- C6: every `model.transcribe` call made by any invocation passes
`language="ja"` (fixed, never auto-detected) and `verbose=False`,
regardless of audio path and model name. -/
theorem C6_language_and_verbose (argv : List String) (res : ModelResult)
    (c : TranscribeArgs) (hc : c ∈ (runMain argv res).transcribeCalls) :
    c.language = some "ja" ∧ c.verbose = some false := by
  unfold runMain at hc
  by_cases h : argv.length < 2
  · rw [if_pos h] at hc
    simp at hc
  · rw [if_neg h] at hc
    have hceq : c = ⟨argv.getD 1 "", some "ja", some false, true⟩ :=
      List.mem_singleton.mp hc
    subst hceq
    exact ⟨rfl, rfl⟩

/-- Witness for C6 at `argv = ["prog", "a.wav"]`. -/
theorem C6_language_and_verbose_witness :
    (⟨"a.wav", some "ja", some false, true⟩ : TranscribeArgs) ∈
      (runMain ["prog", "a.wav"] { text := none, segments := none }).transcribeCalls ∧
    ((⟨"a.wav", some "ja", some false, true⟩ : TranscribeArgs).language = some "ja" ∧
     (⟨"a.wav", some "ja", some false, true⟩ : TranscribeArgs).verbose = some false) :=
  ⟨by decide,
    C6_language_and_verbose ["prog", "a.wav"] { text := none, segments := none }
      ⟨"a.wav", some "ja", some false, true⟩ (by decide)⟩

/-- C7: with an audio path but no model-name argument, `"base"` is passed
to `load_model`; with a second positional argument, that argument is
passed instead. -/
theorem C7_model_name_default (p a m : String) (rest : List String)
    (res : ModelResult) :
    (runMain [p, a] res).loadCalls = ["base"] ∧
    (runMain (p :: a :: m :: rest) res).loadCalls = [m] := by
  constructor
  · unfold runMain
    rw [if_neg (by simp only [List.length_cons, List.length_nil]; omega)]
    unfold runTranscribe
    rw [if_neg (by simp only [List.length_cons, List.length_nil]; omega)]
  · unfold runMain
    rw [if_neg (by simp only [List.length_cons]; omega)]
    unfold runTranscribe
    rw [if_pos (by simp only [List.length_cons]; omega)]
    rfl

/-- C8: the reshaping and serialization is a deterministic function of
the argument vector and the model result: equal inputs give byte-equal
stdout. -/
theorem C8_deterministic_output (argv1 argv2 : List String)
    (res1 res2 : ModelResult) (ha : argv1 = argv2) (hr : res1 = res2) :
    (runMain argv1 res1).stdout = (runMain argv2 res2).stdout := by
  subst ha
  subst hr
  rfl

/-- Witness for C8 at a concrete invocation. -/
theorem C8_deterministic_output_witness :
    (["p", "a"] : List String) = ["p", "a"] ∧
    ({ text := some "t", segments := none } : ModelResult) =
      { text := some "t", segments := none } ∧
    (runMain ["p", "a"] { text := some "t", segments := none }).stdout =
      (runMain ["p", "a"] { text := some "t", segments := none }).stdout :=
  ⟨rfl, rfl, C8_deterministic_output ["p", "a"] ["p", "a"] _ _ rfl rfl⟩

/-- C9: the reshaping is total over missing optional keys: a missing
`segments` key yields empty `subtitles` and `words`, a missing `text` key
yields the empty string, and a segment with no `words` key contributes no
words (the required per-segment and per-word fields are plain fields of
the embedding, mirroring that the script indexes them directly). -/
theorem C9_optional_key_defaults (res : ModelResult) :
    (res.segments = none →
      (transcribeOutput res).subtitles = [] ∧ (transcribeOutput res).words = []) ∧
    (res.text = none → (transcribeOutput res).text = "") ∧
    (∀ segs, res.segments = some segs →
      (transcribeOutput res).words = (segs.map segWordsOut).flatten ∧
      ∀ s ∈ segs, s.words = none → segWordsOut s = []) := by
  refine ⟨?_, ?_, ?_⟩
  · intro h
    rw [transcribeOutput_subtitles, transcribeOutput_words, h]
    exact ⟨rfl, rfl⟩
  · intro h
    simp [transcribeOutput, h]
  · intro segs h
    refine ⟨?_, ?_⟩
    · rw [transcribeOutput_words, h]
      rfl
    · intro s _ hw
      simp [segWordsOut, hw]

/-- Witness for C9 at results with the optional keys absent. -/
theorem C9_optional_key_defaults_witness :
    (transcribeOutput { text := none, segments := none }).subtitles = [] ∧
    (transcribeOutput { text := none, segments := none }).words = [] ∧
    (transcribeOutput { text := none, segments := none }).text = "" ∧
    segWordsOut ⟨0, 1, "a", none⟩ = [] := by
  have h1 := C9_optional_key_defaults { text := none, segments := none }
  have h2 := C9_optional_key_defaults { text := none, segments := some [⟨0, 1, "a", none⟩] }
  refine ⟨(h1.1 rfl).1, (h1.1 rfl).2, h1.2.1 rfl, ?_⟩
  exact (h2.2.2 [⟨0, 1, "a", none⟩] rfl).2 ⟨0, 1, "a", none⟩ (by simp) rfl

set_option maxHeartbeats 1000000 in
/-- C10: the missing-argument error envelope is serialized with default
ASCII escaping, so that stdout line is pure ASCII (the Japanese message
becomes `\uXXXX` escapes), while the success-path serializer leaves
non-ASCII characters unescaped. -/
theorem C10_error_line_ascii (argv : List String) (res : ModelResult)
    (h : argv.length < 2) :
    (runMain argv res).stdout = [errorLine] ∧
    (errorLine.data.all fun c => decide (c.toNat < 128)) = true ∧
    (∀ c : Char, 0x7e < c.toNat → escapeChar false c = String.singleton c) := by
  refine ⟨?_, by decide, ?_⟩
  · unfold runMain
    rw [if_pos h]
  · intro c hc
    unfold escapeChar
    split_ifs with h1 h2 h3 h4 h5 h6 h7 h8 h9 h10
    · exact absurd hc (by subst h1; decide)
    · exact absurd hc (by subst h2; decide)
    · exact absurd hc (by subst h3; decide)
    · exact absurd hc (by subst h4; decide)
    · exact absurd hc (by subst h5; decide)
    · exact absurd hc (by subst h6; decide)
    · exact absurd hc (by subst h7; decide)
    · omega
    · simp at h9
    · simp at h9
    · rfl

/-- Witness for C10 at `argv = ["prog"]` and a non-ASCII character. -/
theorem C10_error_line_ascii_witness :
    (["prog"] : List String).length < 2 ∧
    (runMain ["prog"] { text := none, segments := none }).stdout = [errorLine] ∧
    (errorLine.data.all fun c => decide (c.toNat < 128)) = true ∧
    (0x7e < 'あ'.toNat ∧ escapeChar false 'あ' = String.singleton 'あ') := by
  have h := C10_error_line_ascii ["prog"] { text := none, segments := none } (by decide)
  exact ⟨by decide, h.1, h.2.1, by decide, h.2.2 'あ' (by decide)⟩

end Transcribe
